import Mathlib

/-!
# Verification of the GraspVLA-playground remote control agent

This file is a shallow embedding, in Lean 4, of the control/session core of
`agent.py` (class `RemoteAgent`): proprioception history management, the
delta-pose-to-absolute-pose transform, the gripper-transition expansion loop
of `_post_and_get`, and the per-tick orchestration of `step`.

Numerics are modelled over `ℝ` (the Python code computes with IEEE doubles;
all claims here are about the exact mathematical functions the code
implements).  The external Euler-angle codec (`transforms3d.euler`, a
third-party dependency, not part of this repository) is modelled by its
standard static-`sxyz` semantics, which the repository relies on.
-/

open Real

namespace GraspVLA

/-! ## Constants (class attributes of `RemoteAgent`) -/

/-- `PROPRIO_HISTORY_SIZE = 4`. -/
def PROPRIO_HISTORY_SIZE : Nat := 4

/-- `GRIPPER_OPEN = 1.0`. -/
noncomputable def GRIPPER_OPEN : ℝ := 1

/-- `GRIP_TRANSITION_ACTIONS = 4`. -/
def GRIP_TRANSITION_ACTIONS : Nat := 4

/-- `_EPS4 = np.finfo(float).eps * 4.0 = 4 / 2^52`, the gimbal-lock guard used
by the external `mat2euler`. -/
noncomputable def EPS4 : ℝ := 4 / 2 ^ 52

/-! ## Data model -/

/-- A 6-scalar absolute pose: translation `[x, y, z]` and orientation as Euler
angles `[rx, ry, rz]` in the fixed static-`sxyz` convention. -/
structure Pose6 where
  t : Fin 3 → ℝ
  r : Fin 3 → ℝ

/-- A 7-scalar action `[x, y, z, rx, ry, rz, gripper]`: a `Pose6` plus the
gripper scalar (index 6). -/
structure Act7 where
  pose : Pose6
  grip : ℝ

/-- A 7-scalar proprioception frame `[x, y, z, rx, ry, rz, gripper_state]`. -/
structure ProprioFrame where
  pose : Pose6
  grip : ℝ

/-- The all-zero pose, used as a concrete input in several theorems. -/
noncomputable def zeroPose : Pose6 :=
  ⟨fun _ => 0, fun _ => 0⟩

/-! ## ProprioceptionBuffer (`_process_proprio`, lines 128-141)

`self.proprio_history` is a `deque(maxlen=4)`; `_process_proprio` appends the
current frame (one element is evicted at the left when full) and then pads by
re-appending the tail element while the length is below `maxlen`.  The buffer
element type is kept generic here: the padding/eviction logic never inspects a
frame. -/

/-- One `deque(maxlen=n).append(x)`: append at the tail, evicting from the
head whatever exceeds the capacity. -/
def dequeAppend (maxlen : Nat) (xs : List α) (x : α) : List α :=
  let ys := xs ++ [x]
  ys.drop (ys.length - maxlen)

/-- The `while len < maxlen: append(history[-1])` padding loop: re-append the
tail element until the length reaches `maxlen` (no-op on an empty list, which
the caller never passes). -/
def padTail (maxlen : Nat) (xs : List α) : List α :=
  match xs.getLast? with
  | none => xs
  | some last => xs ++ List.replicate (maxlen - xs.length) last

/-- `_process_proprio`: append the new frame to the bounded history, then pad
to capacity by duplicating the tail. -/
def processProprio (hist : List α) (frame : α) : List α :=
  padTail PROPRIO_HISTORY_SIZE (dequeAppend PROPRIO_HISTORY_SIZE hist frame)

/-- The buffer contents after a sequence of `_process_proprio` calls, starting
from the empty history the agent is constructed with. -/
def applyUpdates (frames : List α) : List α :=
  frames.foldl processProprio []

/-! ## The external Euler-angle codec (`transforms3d.euler`, fixed `sxyz`)

`transforms3d` is a third-party dependency, not part of this repository.  The
spec fixes its semantics: static-frame sequential rotations about x, then y,
then z, so `euler2mat(ai, aj, ak) = Rz(ak) · Ry(aj) · Rx(ai)`, and `mat2euler`
recovers principal-value angles with a gimbal-lock guard at `EPS4`.  The
definitions below are that standard semantics over `ℝ`. -/

/-- Two-argument arctangent `atan2 y x`, as the argument of the complex number
`x + y·i` (range `(-π, π]`, `atan2 0 0 = 0`). -/
noncomputable def atan2 (y x : ℝ) : ℝ := Complex.arg (x + y * Complex.I)

/-- `transforms3d.euler.euler2mat(ai, aj, ak)` for axes `sxyz`. -/
noncomputable def euler2mat (ai aj ak : ℝ) : Matrix (Fin 3) (Fin 3) ℝ :=
  let si := Real.sin ai
  let sj := Real.sin aj
  let sk := Real.sin ak
  let ci := Real.cos ai
  let cj := Real.cos aj
  let ck := Real.cos ak
  let cc := ci * ck
  let cs := ci * sk
  let sc := si * ck
  let ss := si * sk
  Matrix.of ![![cj * ck, sj * sc - cs, sj * cc + ss],
              ![cj * sk, sj * ss + cc, sj * cs - sc],
              ![-sj, cj * si, cj * ci]]

open Classical in
/-- `transforms3d.euler.mat2euler(M)` for axes `sxyz`: recover Euler angles
from a rotation matrix, with the standard gimbal-lock guard. -/
noncomputable def mat2euler (M : Matrix (Fin 3) (Fin 3) ℝ) : Fin 3 → ℝ :=
  let cy := Real.sqrt (M 0 0 * M 0 0 + M 1 0 * M 1 0)
  if EPS4 < cy then
    ![atan2 (M 2 1) (M 2 2), atan2 (-(M 2 0)) cy, atan2 (M 1 0) (M 0 0)]
  else
    ![atan2 (-(M 1 2)) (M 1 1), atan2 (-(M 2 0)) cy, 0]

/-! ## PoseDeltaTranslator (`_delta_to_abs`, lines 193-212) -/

/-- `_delta_to_abs`: compose a 7-scalar delta action onto a 6-scalar current
pose.  `next_rot = euler2mat(delta[3:6]) @ euler2mat(current[3:6])`,
`next_trans = current[:3] + delta[:3]`, gripper scalar passed through. -/
noncomputable def delta_to_abs (delta_action : Act7) (current_pose : Pose6) : Act7 :=
  let current_rot := euler2mat (current_pose.r 0) (current_pose.r 1) (current_pose.r 2)
  let next_rot :=
    euler2mat (delta_action.pose.r 0) (delta_action.pose.r 1) (delta_action.pose.r 2) *
      current_rot
  let current_trans := current_pose.t
  let next_trans := fun i => current_trans i + delta_action.pose.t i
  { pose := { t := next_trans, r := mat2euler next_rot }, grip := delta_action.grip }

/-! ### The spec-side rotation matrices

These follow the spec's words ("the rotation matrices of the Euler angles" in
the fixed static-`sxyz` convention: sequential rotations about x, then y, then
z), independently of the `euler2mat` entry table, for comparison with it. -/

/-- Rotation by `a` about the x axis. -/
noncomputable def Rx (a : ℝ) : Matrix (Fin 3) (Fin 3) ℝ :=
  Matrix.of ![![1, 0, 0],
              ![0, Real.cos a, -Real.sin a],
              ![0, Real.sin a, Real.cos a]]

/-- Rotation by `a` about the y axis. -/
noncomputable def Ry (a : ℝ) : Matrix (Fin 3) (Fin 3) ℝ :=
  Matrix.of ![![Real.cos a, 0, Real.sin a],
              ![0, 1, 0],
              ![-Real.sin a, 0, Real.cos a]]

/-- Rotation by `a` about the z axis. -/
noncomputable def Rz (a : ℝ) : Matrix (Fin 3) (Fin 3) ℝ :=
  Matrix.of ![![Real.cos a, -Real.sin a, 0],
              ![Real.sin a, Real.cos a, 0],
              ![0, 0, 1]]

/-- The rotation matrix of Euler angles `[rx, ry, rz]` in the static-`sxyz`
convention: rotate about x, then y, then z. -/
noncomputable def eulerMatrix (e : Fin 3 → ℝ) : Matrix (Fin 3) (Fin 3) ℝ :=
  Rz (e 2) * Ry (e 1) * Rx (e 0)

/-! ## GripperTransitionPlanner: the chunk-decoding loop of `_post_and_get`
(lines 156-175) -/

open Classical in
/-- One loop entry, after `abs_action` has been computed (lines 161-174):
either a single plain action (gripper field `0.0` or equal to
`last_finger_state`), or an arm-only action (gripper forced to `0.0`)
followed by `GRIP_TRANSITION_ACTIONS` repeats with the full target value, in
which case the persistent `finger_state` (second component of the result) is
committed to the target. -/
noncomputable def decodeEntry (bbox : β) (absA : Act7) (lfs fs : ℝ) :
    List (Act7 × β) × ℝ :=
  if absA.grip = 0 ∨ absA.grip = lfs then
    ([(absA, bbox)], fs)
  else
    (({ absA with grip := 0 }, bbox) ::
       List.replicate GRIP_TRANSITION_ACTIONS (absA, bbox),
     absA.grip)

open Classical in
/-- Line 175: `last_finger_state = abs_action[6] if abs_action[6] != 0 else
last_finger_state`. -/
noncomputable def updateLast (lfs g : ℝ) : ℝ :=
  if g ≠ 0 then g else lfs

/-- The decoding loop over a chunk of (well-formed) delta actions, with the
running `current_pose`, the transient `last_finger_state` (`lfs`) and the
persistent `finger_state` (`fs`).  Returns the produced executable actions in
order, and the final `finger_state`. -/
noncomputable def decodeChunk (bbox : β) :
    List Act7 → Pose6 → ℝ → ℝ → List (Act7 × β) × ℝ
  | [], _, _, fs => ([], fs)
  | d :: rest, pose, lfs, fs =>
    let absA := delta_to_abs d pose
    let entry := decodeEntry bbox absA lfs fs
    let t := decodeChunk bbox rest absA.pose (updateLast lfs absA.grip) entry.2
    (entry.1 ++ t.1, t.2)

/-! ## Wire-level refill (`_post_and_get`, lines 144-175) -/

/-- A response message: `result` (ordered sequence of delta actions, each a
raw scalar sequence whose length is not guaranteed by the transport) and
`debug.bbox`; a missing field is `none`. -/
structure Response (β : Type) where
  result : Option (List (List ℝ))
  bbox : Option β

/-- Failures that abort the current refill: receive timeout, a response
missing a required field, and a numerical/indexing failure while converting
a delta action of the chunk. -/
inductive RefillError
  | timeout
  | protocol
  | numerical

/-- Wire-level `_delta_to_abs`: the index accesses `delta_action[:3]`,
`delta_action[3:6]`, `delta_action[6]` require at least 7 scalars; on a
shorter entry the conversion raises (modelled as `none`). -/
noncomputable def deltaToAbsW (delta : List ℝ) (pose : Pose6) : Option Act7 :=
  if h : 7 ≤ delta.length then
    some (delta_to_abs
      ⟨⟨fun i => delta.get ⟨i.val, by have := i.isLt; omega⟩,
        fun i => delta.get ⟨i.val + 3, by have := i.isLt; omega⟩⟩,
       delta.get ⟨6, by omega⟩⟩ pose)
  else none

/-- The `for delta_action in response['result']` loop (lines 156-175).  Each
entry is converted and its produced actions are appended to the persistent
queue `q` immediately; a conversion failure aborts the loop, and whatever was
already appended (and any committed `finger_state`) persists. -/
noncomputable def refillLoop (bbox : β) :
    List (List ℝ) → Pose6 → ℝ → List (Act7 × β) → ℝ →
      (List (Act7 × β) × ℝ) × Option RefillError
  | [], _, _, q, fs => ((q, fs), none)
  | d :: rest, pose, lfs, q, fs =>
    match deltaToAbsW d pose with
    | none => ((q, fs), some RefillError.numerical)
    | some absA =>
      let entry := decodeEntry bbox absA lfs fs
      refillLoop bbox rest absA.pose (updateLast lfs absA.grip) (q ++ entry.1) entry.2

/-- `_post_and_get`: send the request (its content does not affect control
flow), receive (`none` models the 5-second receive timeout), read
`debug.bbox` then iterate `result`.  Operates on, and returns, the persistent
queue and `finger_state`; `last_finger_state` starts at `finger_state`
(line 156).  The error, when present, is what propagates out of the tick. -/
noncomputable def postAndGet (resp : Option (Response β)) (pose : Pose6)
    (q : List (Act7 × β)) (fs : ℝ) :
    (List (Act7 × β) × ℝ) × Option RefillError :=
  match resp with
  | none => ((q, fs), some RefillError.timeout)
  | some r =>
    match r.bbox with
    | none => ((q, fs), some RefillError.protocol)
    | some bbox =>
      match r.result with
      | none => ((q, fs), some RefillError.protocol)
      | some chunk => refillLoop bbox chunk pose fs q fs

/-! ## ControlAgent orchestration (`step`, lines 100-125) -/

/-- An observation, as the agent consumes it: the end-effector pose in the
robot frame obtained from the external forward-kinematics capability
(position plus sxyz Euler orientation), and the raw gripper reading present
in the observation, which the agent never consults. -/
structure Obs where
  eefPose : Pose6
  gripperObs : ℝ

/-- The mutable state of `RemoteAgent`. -/
structure Agent (β : Type) where
  proprio_history : List ProprioFrame
  pred_actions : List (Act7 × β)
  finger_state : ℝ

/-- `_initialize_state`: empty history, empty queue, gripper open (`+1.0`). -/
noncomputable def initAgent (β : Type) : Agent β :=
  ⟨[], [], GRIPPER_OPEN⟩

/-- `get_current_proprio`: end-effector position and Euler orientation (via
the external FK capability), with `self.finger_state` appended as the seventh
scalar.  The observation's own gripper reading is not used. -/
noncomputable def getCurrentProprio (a : Agent β) (obs : Obs) : ProprioFrame :=
  ⟨obs.eefPose, a.finger_state⟩

/-- Failures that abort a tick of `step`: a refill failure, or popping from an
empty queue. -/
inductive StepError
  | refill (e : RefillError)
  | emptyQueue

/-- Session events on the ZMQ REQ socket. -/
inductive Ev
  | send
  | recv

/-- `popleft` plus the sign flip of `action[6]` (lines 119-124): the emitted
action is the head of the queue with its gripper field negated; `none` models
the `IndexError` of popping an empty deque. -/
noncomputable def popAction : List (Act7 × β) → Option ((Act7 × β) × List (Act7 × β))
  | [] => none
  | (act, bbox) :: rest => some (({ act with grip := -act.grip }, bbox), rest)

/-- One control tick (`step`): update the proprioception history, refill the
queue through the session when it is empty (recording the send/receive events
performed), then pop and emit one polarity-flipped action.  A failure leaves
the already-performed mutations in place, as in the source where exceptions
propagate past completed attribute updates. -/
noncomputable def step (a : Agent β) (obs : Obs) (resp : Option (Response β)) :
    Agent β × Except StepError (Act7 × β) × List Ev :=
  let frame := getCurrentProprio a obs
  let hist := processProprio a.proprio_history frame
  if a.pred_actions.isEmpty then
    match postAndGet resp (hist.getLastD frame).pose a.pred_actions a.finger_state with
    | ((q, fs), some e) =>
      (⟨hist, q, fs⟩, Except.error (StepError.refill e), [Ev.send, Ev.recv])
    | ((q, fs), none) =>
      match popAction q with
      | none => (⟨hist, q, fs⟩, Except.error StepError.emptyQueue, [Ev.send, Ev.recv])
      | some (out, rest) => (⟨hist, rest, fs⟩, Except.ok out, [Ev.send, Ev.recv])
  else
    match popAction a.pred_actions with
    | none =>
      (⟨hist, a.pred_actions, a.finger_state⟩, Except.error StepError.emptyQueue, [])
    | some (out, rest) => (⟨hist, rest, a.finger_state⟩, Except.ok out, [])

/-- The session events performed by a sequence of ticks, each tick supplying
one observation and (when a request is made) one transport outcome. -/
noncomputable def runTrace : List (Obs × Option (Response β)) → Agent β → List Ev
  | [], _ => []
  | (obs, resp) :: rest, a =>
    (step a obs resp).2.2 ++ runTrace rest (step a obs resp).1

/-! ## Buffer lemmas -/

theorem dequeAppend_eq_drop (xs : List α) (x : α) :
    dequeAppend PROPRIO_HISTORY_SIZE xs x =
      xs.drop (xs.length + 1 - 4) ++ [x] := by
  unfold dequeAppend PROPRIO_HISTORY_SIZE
  simp only [List.length_append, List.length_singleton]
  exact List.drop_append_of_le_length (by omega)

theorem padTail_of_length_eq (xs : List α) (h : xs.length = 4) :
    padTail PROPRIO_HISTORY_SIZE xs = xs := by
  unfold padTail
  match hlast : xs.getLast? with
  | none =>
    rfl
  | some l =>
    simp [h, PROPRIO_HISTORY_SIZE]

theorem processProprio_of_length_eq (xs : List α) (x : α) (h : xs.length = 4) :
    processProprio xs x = xs.drop 1 ++ [x] := by
  unfold processProprio
  rw [dequeAppend_eq_drop]
  rw [h]
  exact padTail_of_length_eq _ (by
    simp only [List.length_append, List.length_drop, List.length_singleton, h])

theorem processProprio_nil (x : α) :
    processProprio [] x = [x, x, x, x] := by
  rfl

/-- Core buffer characterization: after updates `f :: rest` (oldest first),
the buffer is the last four elements of the padded stream
`f, f, f, f, rest…`. -/
theorem applyUpdates_eq_drop (f : α) (rest : List α) :
    applyUpdates (f :: rest) = (f :: f :: f :: f :: rest).drop rest.length := by
  induction rest using List.reverseRecOn with
  | nil =>
    simp only [List.drop_zero, List.length_nil]
    rfl
  | append_singleton rest g ih =>
    have hlenP : (f :: f :: f :: f :: rest).length = rest.length + 4 := by
      simp only [List.length_cons]
    have hprev : (applyUpdates (f :: rest)).length = 4 := by
      rw [ih, List.length_drop, hlenP]; omega
    have hfold : applyUpdates (f :: (rest ++ [g])) =
        processProprio (applyUpdates (f :: rest)) g := by
      show List.foldl processProprio [] ((f :: rest) ++ [g]) = _
      rw [List.foldl_append]
      rfl
    rw [hfold, processProprio_of_length_eq _ _ hprev, ih]
    rw [List.drop_drop]
    have : (f :: f :: f :: f :: (rest ++ [g])) =
        (f :: f :: f :: f :: rest) ++ [g] := by simp
    rw [this, List.length_append, List.length_singleton,
      List.drop_append_of_le_length (by omega)]

/-- Length version: the buffer holds exactly four frames after the first
update. -/
theorem applyUpdates_length (f : α) (rest : List α) :
    (applyUpdates (f :: rest)).length = 4 := by
  rw [applyUpdates_eq_drop, List.length_drop]
  simp only [List.length_cons]
  omega

/-! ## Translator lemmas -/

/-- The gripper scalar of a delta action passes through `delta_to_abs`
untouched. -/
theorem delta_to_abs_grip (delta_action : Act7) (current_pose : Pose6) :
    (delta_to_abs delta_action current_pose).grip = delta_action.grip := rfl

/-- The codec's entry table agrees with the sequential-rotation product. -/
theorem euler2mat_eq_eulerMatrix (ai aj ak : ℝ) :
    euler2mat ai aj ak = Rz ak * Ry aj * Rx ai := by
  ext i j
  fin_cases i <;> fin_cases j <;>
    simp [euler2mat, Rx, Ry, Rz, Matrix.mul_apply, Fin.sum_univ_three,
      Matrix.vecHead, Matrix.vecTail] <;> ring

/-! ### Round-trip facts about the codec -/

theorem atan2_sin_cos {θ : ℝ} (hθ : θ ∈ Set.Ioc (-π) π) :
    atan2 (Real.sin θ) (Real.cos θ) = θ := by
  unfold atan2
  rw [Complex.ofReal_cos, Complex.ofReal_sin]
  exact Complex.arg_cos_add_sin_mul_I hθ

theorem atan2_pos_mul {r : ℝ} (hr : 0 < r) (y x : ℝ) :
    atan2 (r * y) (r * x) = atan2 y x := by
  unfold atan2
  rw [show ((r * x : ℝ) : ℂ) + (r * y : ℝ) * Complex.I =
      (r : ℝ) * ((x : ℝ) + (y : ℝ) * Complex.I) by push_cast; ring]
  exact Complex.arg_real_mul _ hr

theorem atan2_zero_one : atan2 0 1 = 0 := by
  unfold atan2
  rw [show ((1 : ℝ) : ℂ) + ((0 : ℝ) : ℂ) * Complex.I = 1 by push_cast; ring]
  exact Complex.arg_one

theorem euler2mat_zero : euler2mat 0 0 0 = 1 := by
  ext i j
  fin_cases i <;> fin_cases j <;>
    simp [euler2mat, Matrix.one_apply, Matrix.vecHead, Matrix.vecTail]

theorem euler2mat_zero_zero_two_pi : euler2mat 0 0 (2 * π) = 1 := by
  ext i j
  fin_cases i <;> fin_cases j <;>
    simp [euler2mat, Matrix.one_apply, Matrix.vecHead, Matrix.vecTail,
      Real.cos_two_pi, Real.sin_two_pi]

theorem mat2euler_one : mat2euler 1 = ![0, 0, 0] := by
  unfold mat2euler
  have h1 : (1 : Matrix (Fin 3) (Fin 3) ℝ) 0 0 = 1 := by simp
  have h2 : (1 : Matrix (Fin 3) (Fin 3) ℝ) 1 0 = 0 := by simp [Matrix.one_apply]
  have h3 : (1 : Matrix (Fin 3) (Fin 3) ℝ) 2 0 = 0 := by simp [Matrix.one_apply]
  have h4 : (1 : Matrix (Fin 3) (Fin 3) ℝ) 2 1 = 0 := by simp [Matrix.one_apply]
  have h5 : (1 : Matrix (Fin 3) (Fin 3) ℝ) 2 2 = 1 := by simp
  simp only [h1, h2, h3, h4, h5]
  have hcy : Real.sqrt (1 * 1 + 0 * 0) = 1 := by
    norm_num
  rw [hcy, if_pos (by norm_num [EPS4])]
  simp [atan2_zero_one]

/-- `mat2euler` inverts `euler2mat` when the angles lie in the principal
ranges and clear the gimbal-lock guard. -/
theorem mat2euler_euler2mat (ai aj ak : ℝ)
    (hi : ai ∈ Set.Ioc (-π) π) (hj : aj ∈ Set.Ioo (-(π / 2)) (π / 2))
    (hj4 : EPS4 < Real.cos aj) (hk : ak ∈ Set.Ioc (-π) π) :
    mat2euler (euler2mat ai aj ak) = ![ai, aj, ak] := by
  have hcj : 0 < Real.cos aj := Real.cos_pos_of_mem_Ioo hj
  have h00 : euler2mat ai aj ak 0 0 = Real.cos aj * Real.cos ak := by
    simp [euler2mat]
  have h10 : euler2mat ai aj ak 1 0 = Real.cos aj * Real.sin ak := by
    simp [euler2mat]
  have h20 : euler2mat ai aj ak 2 0 = -Real.sin aj := by
    simp [euler2mat, Matrix.vecHead, Matrix.vecTail]
  have h21 : euler2mat ai aj ak 2 1 = Real.cos aj * Real.sin ai := by
    simp [euler2mat, Matrix.vecHead, Matrix.vecTail]
  have h22 : euler2mat ai aj ak 2 2 = Real.cos aj * Real.cos ai := by
    simp [euler2mat, Matrix.vecHead, Matrix.vecTail]
  unfold mat2euler
  rw [h00, h10, h20, h21, h22]
  have hcy : Real.sqrt (Real.cos aj * Real.cos ak * (Real.cos aj * Real.cos ak) +
      Real.cos aj * Real.sin ak * (Real.cos aj * Real.sin ak)) = Real.cos aj := by
    have hs : Real.cos aj * Real.cos ak * (Real.cos aj * Real.cos ak) +
        Real.cos aj * Real.sin ak * (Real.cos aj * Real.sin ak) = Real.cos aj ^ 2 := by
      have h := Real.sin_sq_add_cos_sq ak
      nlinarith [h]
    rw [hs, Real.sqrt_sq hcj.le]
  rw [hcy, if_pos hj4, neg_neg]
  have hjIoc : aj ∈ Set.Ioc (-π) π := by
    constructor
    · have := Real.pi_pos
      have := hj.1
      linarith
    · have := Real.pi_pos
      have := hj.2
      linarith
  rw [atan2_pos_mul hcj, atan2_pos_mul hcj, atan2_sin_cos hi, atan2_sin_cos hk,
    atan2_sin_cos hjIoc]

/-! ## Claim C4 -/

/-- C4: proprioception buffer priming and content.  For every update sequence
`f :: rest` (at least one frame), the buffer length is exactly 4 after the
first update; after update 1 every slot equals the frame just appended
(`[f, f, f, f]`); and in general the buffer, oldest first, is the last four
elements of the padded stream `f, f, f, f, rest…`, with oldest-eviction once
full. -/
theorem C4_proprio_buffer_priming (f : α) (rest : List α) :
    (applyUpdates (f :: rest)).length = 4 ∧
    applyUpdates [f] = [f, f, f, f] ∧
    applyUpdates (f :: rest) = (f :: f :: f :: f :: rest).drop rest.length :=
  ⟨applyUpdates_length f rest, rfl, applyUpdates_eq_drop f rest⟩

/-! ## Claim C2 -/

/-- C2: delta-to-absolute pose composition.  For every 7-scalar delta action
and 6-scalar current pose, the result's orientation is the sxyz Euler
decoding of `R_delta * R_cur` (delta-after-current in matrix-multiplication
order), where each factor is the rotation matrix of the respective Euler
angles; the translation is the component-wise sum `t_cur + t_delta` with no
rotation applied to the translation delta; and the seventh scalar is the
delta's gripper field unchanged. -/
theorem C2_delta_to_abs_composition (delta : Act7) (cur : Pose6) :
    delta_to_abs delta cur =
      { pose := { t := fun i => cur.t i + delta.pose.t i,
                  r := mat2euler (eulerMatrix delta.pose.r * eulerMatrix cur.r) },
        grip := delta.grip } := by
  simp only [delta_to_abs, eulerMatrix, euler2mat_eq_eulerMatrix]

/-! ## Claim C7 -/

theorem round_trip_two_pi :
    mat2euler (euler2mat 0 0 0 * euler2mat (![(0 : ℝ), 0, 2 * π] 0)
      (![(0 : ℝ), 0, 2 * π] 1) (![(0 : ℝ), 0, 2 * π] 2)) = ![0, 0, 0] := by
  have h0 : (![(0 : ℝ), 0, 2 * π] 0) = 0 := rfl
  have h1 : (![(0 : ℝ), 0, 2 * π] 1) = 0 := rfl
  have h2 : (![(0 : ℝ), 0, 2 * π] 2) = 2 * π := rfl
  rw [h0, h1, h2, euler2mat_zero, euler2mat_zero_zero_two_pi, one_mul,
    mat2euler_one]

/-- C7 fails as stated: with current orientation `[0, 0, 2π]` (outside the
principal Euler range), composing the all-zero delta does not reproduce the
input pose — the Euler→matrix→Euler round trip returns `[0, 0, 0]`. -/
theorem C7_counterexample :
    delta_to_abs ⟨zeroPose, 0⟩ ⟨fun _ => 0, ![0, 0, 2 * π]⟩ ≠
      ⟨⟨fun _ => 0, ![0, 0, 2 * π]⟩, 0⟩ := by
  intro h
  have h2 := congrArg (fun a => a.pose.r 2) h
  simp only [delta_to_abs, zeroPose] at h2
  rw [round_trip_two_pi] at h2
  have hz : (0 : ℝ) = 2 * π := h2
  have := Real.pi_pos
  linarith

/-- C7 amended: zero-delta identity on the principal range.  If the current
orientation's first and third Euler angles lie in `(-π, π]` and its second
angle lies in `(-π/2, π/2)` with `cos` clearing the gimbal guard `EPS4`, then
composing a delta whose six pose scalars are all zero returns exactly the
input pose (the gripper scalar passing through). -/
theorem C7_zero_delta_identity (cur : Pose6) (g : ℝ)
    (h0 : cur.r 0 ∈ Set.Ioc (-π) π)
    (h1 : cur.r 1 ∈ Set.Ioo (-(π / 2)) (π / 2))
    (h1e : EPS4 < Real.cos (cur.r 1))
    (h2 : cur.r 2 ∈ Set.Ioc (-π) π) :
    delta_to_abs ⟨zeroPose, g⟩ cur = ⟨cur, g⟩ := by
  obtain ⟨t, r⟩ := cur
  simp only [delta_to_abs, zeroPose, Act7.mk.injEq, Pose6.mk.injEq]
  refine ⟨⟨?_, ?_⟩, trivial⟩
  · funext i
    simp
  · rw [euler2mat_zero, one_mul, mat2euler_euler2mat _ _ _ h0 h1 h1e h2]
    funext i
    fin_cases i <;> rfl

/-- Witness for the amended C7 at the all-zero pose. -/
theorem C7_zero_delta_identity_witness :
    delta_to_abs ⟨zeroPose, 5⟩ zeroPose = ⟨zeroPose, 5⟩ := by
  have hpi := Real.pi_pos
  exact C7_zero_delta_identity zeroPose 5
    ⟨by simpa [zeroPose] using hpi, by simpa [zeroPose] using hpi.le⟩
    ⟨by simp [zeroPose]; linarith, by simp [zeroPose]; linarith⟩
    (by simp [zeroPose]; norm_num [EPS4])
    ⟨by simpa [zeroPose] using hpi, by simpa [zeroPose] using hpi.le⟩

/-! ## Claim C1 -/

/-- C1: gripper transition expansion.  Decoding a chunk processes delta
actions in order.  An entry whose gripper field is `0.0` or equal to
`last_finger_state` enqueues exactly one executable action (this absolute
pose, gripper left as computed, paired with the response's bounding box); an
entry whose gripper field is nonzero and differs from `last_finger_state`
enqueues exactly five (one with the gripper forced to `0.0`, then four with
the full target) and commits the persistent finger state to the target
immediately (the recursion continues with `fs` = the target).  After each
entry `last_finger_state` becomes the entry's gripper field if nonzero, else
stays unchanged.  In particular the chunk `[(p1, 0), (p2, +1)]` decoded with
`last_finger_state = -1` enqueues exactly those six actions in order. -/
theorem C1_gripper_transition_expansion :
    (∀ (bbox : β) (d : Act7) (rest : List Act7) (pose : Pose6) (lfs fs : ℝ),
        d.grip = 0 ∨ d.grip = lfs →
        decodeChunk bbox (d :: rest) pose lfs fs =
          ((delta_to_abs d pose, bbox) ::
             (decodeChunk bbox rest (delta_to_abs d pose).pose
               (if d.grip = 0 then lfs else d.grip) fs).1,
           (decodeChunk bbox rest (delta_to_abs d pose).pose
               (if d.grip = 0 then lfs else d.grip) fs).2)) ∧
    (∀ (bbox : β) (d : Act7) (rest : List Act7) (pose : Pose6) (lfs fs : ℝ),
        d.grip ≠ 0 → d.grip ≠ lfs →
        decodeChunk bbox (d :: rest) pose lfs fs =
          (({ delta_to_abs d pose with grip := 0 }, bbox) ::
             (List.replicate 4 (delta_to_abs d pose, bbox) ++
               (decodeChunk bbox rest (delta_to_abs d pose).pose d.grip d.grip).1),
           (decodeChunk bbox rest (delta_to_abs d pose).pose d.grip d.grip).2)) ∧
    (∀ (bbox : β) (p1 p2 : Pose6) (pose : Pose6) (fs : ℝ),
        decodeChunk bbox [⟨p1, 0⟩, ⟨p2, 1⟩] pose (-1) fs =
          ([(delta_to_abs ⟨p1, 0⟩ pose, bbox),
            ({ delta_to_abs ⟨p2, 1⟩ (delta_to_abs ⟨p1, 0⟩ pose).pose with grip := 0 },
              bbox),
            (delta_to_abs ⟨p2, 1⟩ (delta_to_abs ⟨p1, 0⟩ pose).pose, bbox),
            (delta_to_abs ⟨p2, 1⟩ (delta_to_abs ⟨p1, 0⟩ pose).pose, bbox),
            (delta_to_abs ⟨p2, 1⟩ (delta_to_abs ⟨p1, 0⟩ pose).pose, bbox),
            (delta_to_abs ⟨p2, 1⟩ (delta_to_abs ⟨p1, 0⟩ pose).pose, bbox)], 1)) := by
  refine ⟨?_, ?_, ?_⟩
  · intro bbox d rest pose lfs fs h
    have hg : (delta_to_abs d pose).grip = d.grip := rfl
    simp only [decodeChunk, decodeEntry, updateLast, hg]
    rw [if_pos h]
    by_cases hd : d.grip = 0
    · simp [hd]
    · simp [hd]
  · intro bbox d rest pose lfs fs h0 hl
    have hg : (delta_to_abs d pose).grip = d.grip := rfl
    simp only [decodeChunk, decodeEntry, updateLast, hg]
    rw [if_neg (by push_neg; exact ⟨h0, hl⟩), if_pos h0]
    simp [GRIP_TRANSITION_ACTIONS]
  · intro bbox p1 p2 pose fs
    have hg1 : (delta_to_abs ⟨p1, 0⟩ pose).grip = 0 := rfl
    have hg2 : ∀ q : Pose6, (delta_to_abs ⟨p2, 1⟩ q).grip = 1 := fun _ => rfl
    norm_num [decodeChunk, decodeEntry, updateLast, hg1, hg2,
      GRIP_TRANSITION_ACTIONS, List.replicate]

/-- Witness for C1: both branch shapes and the concrete six-action chunk, at
the all-zero pose. -/
theorem C1_gripper_transition_expansion_witness :
    decodeChunk () [(⟨zeroPose, 0⟩ : Act7)] zeroPose (-1) 1 =
      ([(delta_to_abs ⟨zeroPose, 0⟩ zeroPose, ())], 1) ∧
    decodeChunk () [(⟨zeroPose, 1⟩ : Act7)] zeroPose (-1) 1 =
      ([({ delta_to_abs ⟨zeroPose, 1⟩ zeroPose with grip := 0 }, ()),
        (delta_to_abs ⟨zeroPose, 1⟩ zeroPose, ()),
        (delta_to_abs ⟨zeroPose, 1⟩ zeroPose, ()),
        (delta_to_abs ⟨zeroPose, 1⟩ zeroPose, ()),
        (delta_to_abs ⟨zeroPose, 1⟩ zeroPose, ())], 1) ∧
    (decodeChunk () [(⟨zeroPose, 0⟩ : Act7), ⟨zeroPose, 1⟩] zeroPose (-1) 1).1.length
      = 6 := by
  refine ⟨?_, ?_, ?_⟩
  · rw [C1_gripper_transition_expansion.1 () ⟨zeroPose, 0⟩ [] zeroPose (-1) 1
      (Or.inl rfl)]
    simp [decodeChunk]
  · rw [C1_gripper_transition_expansion.2.1 () ⟨zeroPose, 1⟩ [] zeroPose (-1) 1
      (by norm_num) (by norm_num)]
    simp [decodeChunk, List.replicate]
  · rw [C1_gripper_transition_expansion.2.2 () zeroPose zeroPose zeroPose 1]
    simp

/-! ## Refill lemmas -/

/-- The refill loop only ever appends: the incoming queue is a prefix of the
outgoing queue, whatever happens. -/
theorem refillLoop_extends (bbox : β) (chunk : List (List ℝ)) :
    ∀ (pose : Pose6) (lfs : ℝ) (q : List (Act7 × β)) (fs : ℝ),
      ∃ extra, (refillLoop bbox chunk pose lfs q fs).1.1 = q ++ extra := by
  induction chunk with
  | nil =>
    intro pose lfs q fs
    exact ⟨[], by simp [refillLoop]⟩
  | cons d rest ih =>
    intro pose lfs q fs
    simp only [refillLoop]
    cases hda : deltaToAbsW d pose with
    | none =>
      exact ⟨[], by simp⟩
    | some absA =>
      obtain ⟨extra, hextra⟩ := ih absA.pose (updateLast lfs absA.grip)
        (q ++ (decodeEntry bbox absA lfs fs).1) (decodeEntry bbox absA lfs fs).2
      exact ⟨(decodeEntry bbox absA lfs fs).1 ++ extra, by
        rw [hextra, List.append_assoc]⟩

/-- `_post_and_get` only ever appends to the queue. -/
theorem postAndGet_extends (resp : Option (Response β)) (pose : Pose6)
    (q : List (Act7 × β)) (fs : ℝ) :
    ∃ extra, (postAndGet resp pose q fs).1.1 = q ++ extra := by
  cases resp with
  | none => exact ⟨[], by simp [postAndGet]⟩
  | some r =>
    obtain ⟨res, bb⟩ := r
    cases bb with
    | none => exact ⟨[], by simp [postAndGet]⟩
    | some bbox =>
      cases res with
      | none => exact ⟨[], by simp [postAndGet]⟩
      | some chunk => exact refillLoop_extends bbox chunk pose fs q fs

/-- A malformed response (either required field missing) yields a protocol
failure and leaves queue and finger state untouched. -/
theorem postAndGet_protocol (r : Response β) (pose : Pose6)
    (q : List (Act7 × β)) (fs : ℝ) (h : r.result = none ∨ r.bbox = none) :
    postAndGet (some r) pose q fs = ((q, fs), some RefillError.protocol) := by
  obtain ⟨res, bb⟩ := r
  cases bb with
  | none => rfl
  | some bbox =>
    cases res with
    | none => rfl
    | some chunk =>
      rcases h with h | h <;> simp at h

/-! ## Claim C8 -/

/-- C8: malformed-response failure mode.  Any response missing a required
field (the `result` sequence or the `debug.bbox` payload) fails the refill
with a protocol error, fatal to the current tick, and leaves the queue and
the finger state untouched. -/
theorem C8_malformed_response (r : Response β) (pose : Pose6)
    (q : List (Act7 × β)) (fs : ℝ) (h : r.result = none ∨ r.bbox = none) :
    (postAndGet (some r) pose q fs).2 = some RefillError.protocol ∧
    (postAndGet (some r) pose q fs).1 = (q, fs) := by
  rw [postAndGet_protocol r pose q fs h]
  exact ⟨rfl, rfl⟩

/-- Witness for C8 at a response with a missing `result` field. -/
theorem C8_malformed_response_witness :
    (postAndGet (some ⟨none, some ()⟩) zeroPose ([] : List (Act7 × Unit)) 1).2 =
        some RefillError.protocol ∧
    (postAndGet (some ⟨none, some ()⟩) zeroPose ([] : List (Act7 × Unit)) 1).1 =
        ([], 1) :=
  C8_malformed_response ⟨none, some ()⟩ zeroPose [] 1 (Or.inl rfl)

/-! ## Claim C3 -/

/-- C3 fails as stated: a refill that fails while converting the second delta
action of the chunk does not leave the queue as it was.  With the chunk
`[seven zeros, empty list]` (the second entry too short to index), from an
empty queue, the refill fails with a numerical/conversion error, yet the
queue is no longer empty — the action decoded from the first entry remains
enqueued. -/
theorem C3_counterexample :
    (postAndGet (some ⟨some [List.replicate 7 0, []], some ()⟩) zeroPose
        ([] : List (Act7 × Unit)) 1).2 = some RefillError.numerical ∧
    (postAndGet (some ⟨some [List.replicate 7 0, []], some ()⟩) zeroPose
        ([] : List (Act7 × Unit)) 1).1.1 ≠ [] := by
  constructor <;>
    norm_num [postAndGet, refillLoop, deltaToAbsW, decodeEntry, updateLast,
      delta_to_abs_grip, List.getElem_replicate]

/-- C3 amended: failures that occur before any entry is decoded — a receive
timeout, a response missing a required field, or a conversion failure on the
first chunk entry — leave the queue and finger state exactly as they were (in
particular still empty); and in every case the original queue is a prefix of
the resulting queue, so nothing enqueued is ever removed, but a conversion
failure on a later entry leaves the already-decoded prefix enqueued (and any
already-committed finger state), so the refill is not atomic in general. -/
theorem C3_refill_failure_behavior :
    (∀ (pose : Pose6) (q : List (Act7 × β)) (fs : ℝ),
        postAndGet none pose q fs = ((q, fs), some RefillError.timeout)) ∧
    (∀ (r : Response β) (pose : Pose6) (q : List (Act7 × β)) (fs : ℝ),
        r.result = none ∨ r.bbox = none →
        postAndGet (some r) pose q fs = ((q, fs), some RefillError.protocol)) ∧
    (∀ (bbox : β) (d : List ℝ) (rest : List (List ℝ)) (pose : Pose6) (lfs : ℝ)
        (q : List (Act7 × β)) (fs : ℝ),
        deltaToAbsW d pose = none →
        refillLoop bbox (d :: rest) pose lfs q fs =
          ((q, fs), some RefillError.numerical)) ∧
    (∀ (resp : Option (Response β)) (pose : Pose6) (q : List (Act7 × β)) (fs : ℝ),
        ∃ extra, (postAndGet resp pose q fs).1.1 = q ++ extra) := by
  refine ⟨fun pose q fs => rfl, postAndGet_protocol, ?_, postAndGet_extends⟩
  intro bbox d rest pose lfs q fs h
  simp only [refillLoop, h]

/-- Witness for the amended C3: a timeout and a first-entry conversion
failure, both from the empty queue, leave it empty. -/
theorem C3_refill_failure_behavior_witness :
    postAndGet none zeroPose ([] : List (Act7 × Unit)) 1 =
        (([], 1), some RefillError.timeout) ∧
    refillLoop () [[]] zeroPose 1 ([] : List (Act7 × Unit)) 1 =
        (([], 1), some RefillError.numerical) := by
  constructor
  · exact C3_refill_failure_behavior.1 zeroPose [] 1
  · exact C3_refill_failure_behavior.2.2.1 () [] [] zeroPose 1 [] 1
      (by rw [deltaToAbsW, dif_neg (by simp)])

/-! ## Claim C9 -/

/-- C9: empty-chunk edge case.  On a tick with an empty queue, if the
response is well-formed but its `result` sequence is empty, the refill
completes leaving the queue still empty and the tick then fails on popping
the head action (the pop returns no value), without emitting an action and
without touching the finger state. -/
theorem C9_empty_chunk (a : Agent β) (obs : Obs) (bb : β)
    (h : a.pred_actions = []) :
    (step a obs (some ⟨some [], some bb⟩)).2.1 = Except.error StepError.emptyQueue ∧
    (step a obs (some ⟨some [], some bb⟩)).1.pred_actions = [] ∧
    (step a obs (some ⟨some [], some bb⟩)).1.finger_state = a.finger_state := by
  simp [step, h, List.isEmpty_nil, if_true, postAndGet, refillLoop, popAction]

/-- Witness for C9 at the freshly initialized agent. -/
theorem C9_empty_chunk_witness :
    (step (initAgent Unit) ⟨zeroPose, 0⟩ (some ⟨some [], some ()⟩)).2.1 =
        Except.error StepError.emptyQueue ∧
    (step (initAgent Unit) ⟨zeroPose, 0⟩ (some ⟨some [], some ()⟩)).1.pred_actions
        = [] ∧
    (step (initAgent Unit) ⟨zeroPose, 0⟩ (some ⟨some [], some ()⟩)).1.finger_state
        = (initAgent Unit).finger_state :=
  C9_empty_chunk (initAgent Unit) ⟨zeroPose, 0⟩ () rfl

/-! ## Step lemmas -/

/-- After padding, the last element of a list ending in `f` is `f`. -/
theorem getLastD_padTail_concat (n : Nat) (l : List α) (f d : α) :
    (padTail n (l ++ [f])).getLastD d = f := by
  unfold padTail
  rw [List.getLast?_concat]
  simp only [List.getLastD_eq_getLast?, List.getLast?_append, List.getLast?_concat,
    List.getLast?_replicate]
  split <;> rfl

/-- The most recent buffer entry after `_process_proprio` is the frame just
appended (`self.proprio_history[-1]`). -/
theorem getLastD_processProprio (hist : List α) (f d : α) :
    (processProprio hist f).getLastD d = f := by
  unfold processProprio
  rw [dequeAppend_eq_drop]
  exact getLastD_padTail_concat _ _ f d

/-- The session events of one tick: one send/receive round-trip exactly when
the queue was empty, none otherwise. -/
theorem step_trace_eq (a : Agent β) (obs : Obs) (resp : Option (Response β)) :
    (step a obs resp).2.2 =
      if a.pred_actions.isEmpty then [Ev.send, Ev.recv] else [] := by
  unfold step
  cases hq : a.pred_actions.isEmpty
  · simp only [hq, Bool.false_eq_true, if_false]
    split <;> rfl
  · simp only [hq, if_true]
    split
    · rfl
    · split <;> rfl

/-- The whole session trace of any run is a concatenation of send/receive
round-trips. -/
theorem runTrace_replicate (ticks : List (Obs × Option (Response β))) :
    ∀ a : Agent β,
      ∃ k, runTrace ticks a = (List.replicate k [Ev.send, Ev.recv]).flatten := by
  induction ticks with
  | nil =>
    intro a
    exact ⟨0, rfl⟩
  | cons t rest ih =>
    intro a
    obtain ⟨obs, resp⟩ := t
    obtain ⟨k, hk⟩ := ih (step a obs resp).1
    by_cases hq : a.pred_actions.isEmpty = true
    · refine ⟨k + 1, ?_⟩
      simp only [runTrace]
      rw [step_trace_eq, if_pos hq, hk, List.replicate_succ, List.flatten_cons]
    · refine ⟨k, ?_⟩
      simp only [runTrace]
      rw [step_trace_eq, if_neg hq, hk, List.nil_append]

/-! ## Claim C5 -/

/-- C5: session strict alternation.  In every execution (any tick sequence
from any agent state), the session trace is a concatenation of
send-then-receive round-trips — every send is followed by exactly one receive
before any further send; and per tick exactly one round-trip is performed
when the queue is empty and none otherwise, so a second request is never
issued while one is outstanding. -/
theorem C5_session_alternation :
    (∀ (ticks : List (Obs × Option (Response β))) (a : Agent β),
        ∃ k, runTrace ticks a = (List.replicate k [Ev.send, Ev.recv]).flatten) ∧
    (∀ (a : Agent β) (obs : Obs) (resp : Option (Response β)),
        a.pred_actions = [] → (step a obs resp).2.2 = [Ev.send, Ev.recv]) ∧
    (∀ (a : Agent β) (obs : Obs) (resp : Option (Response β)),
        a.pred_actions ≠ [] → (step a obs resp).2.2 = []) := by
  refine ⟨fun ticks a => runTrace_replicate ticks a, ?_, ?_⟩
  · intro a obs resp h
    rw [step_trace_eq, if_pos (by simp [h])]
  · intro a obs resp h
    rw [step_trace_eq, if_neg (by simpa using h)]

/-- Witness for C5: a refill tick performs one round-trip; a tick with a
nonempty queue performs none. -/
theorem C5_session_alternation_witness :
    (step (initAgent Unit) ⟨zeroPose, 0⟩ none).2.2 = [Ev.send, Ev.recv] ∧
    (step (⟨[], [(⟨zeroPose, 1⟩, ())], 1⟩ : Agent Unit) ⟨zeroPose, 0⟩ none).2.2
      = [] :=
  ⟨C5_session_alternation.2.1 (initAgent Unit) ⟨zeroPose, 0⟩ none rfl,
   C5_session_alternation.2.2 ⟨[], [(⟨zeroPose, 1⟩, ())], 1⟩ ⟨zeroPose, 0⟩ none
     (by simp)⟩

/-! ## Claim C6 -/

/-- C6: emitted action polarity.  On a tick whose queue (before or after the
refill) has head `(act, bb)`, `step` returns `act` with its gripper field
negated while the six pose scalars and the bounding box are returned exactly
as stored, and exactly that one action is removed from the queue. -/
theorem C6_emitted_polarity :
    (∀ (a : Agent β) (obs : Obs) (resp : Option (Response β)) (act : Act7)
        (bb : β) (rest : List (Act7 × β)),
        a.pred_actions = (act, bb) :: rest →
        step a obs resp =
          (⟨processProprio a.proprio_history (getCurrentProprio a obs), rest,
              a.finger_state⟩,
           Except.ok ({ act with grip := -act.grip }, bb), [])) ∧
    (∀ (a : Agent β) (obs : Obs) (resp : Option (Response β)) (act : Act7)
        (bb : β) (rest : List (Act7 × β)) (fs : ℝ),
        a.pred_actions = [] →
        postAndGet resp obs.eefPose a.pred_actions a.finger_state =
          (((act, bb) :: rest, fs), none) →
        step a obs resp =
          (⟨processProprio a.proprio_history (getCurrentProprio a obs), rest, fs⟩,
           Except.ok ({ act with grip := -act.grip }, bb), [Ev.send, Ev.recv])) := by
  constructor
  · intro a obs resp act bb rest h
    simp only [step, h, List.isEmpty_cons, Bool.false_eq_true, if_false, popAction]
  · intro a obs resp act bb rest fs h hpg
    rw [h] at hpg
    have hpose : ((processProprio a.proprio_history
        (getCurrentProprio a obs)).getLastD (getCurrentProprio a obs)).pose =
        obs.eefPose := by
      rw [getLastD_processProprio]
      rfl
    simp only [step, h, List.isEmpty_nil, if_true]
    rw [hpose, hpg]
    rfl

/-- Witness for C6: a stored action with gripper `+2` is emitted with gripper
`-2`, from a nonempty queue and from a refilled queue. -/
theorem C6_emitted_polarity_witness :
    step (⟨[], [(⟨zeroPose, 2⟩, ())], 1⟩ : Agent Unit) ⟨zeroPose, 0⟩ none =
      (⟨processProprio []
          (getCurrentProprio (⟨[], [(⟨zeroPose, 2⟩, ())], 1⟩ : Agent Unit)
            ⟨zeroPose, 0⟩), [], 1⟩,
       Except.ok ({ (⟨zeroPose, 2⟩ : Act7) with grip := -(2 : ℝ) }, ()), []) :=
  C6_emitted_polarity.1 ⟨[], [(⟨zeroPose, 2⟩, ())], 1⟩ ⟨zeroPose, 0⟩ none
    ⟨zeroPose, 2⟩ () [] rfl

/-! ## Claim C10 -/

/-- C10: commanded-gripper proprioception invariant.  The agent's finger
state starts at the open value `+1.0`; every frame produced by
`get_current_proprio` carries the agent's persistent finger state as its
seventh scalar — and is independent of the observation's own gripper reading;
every tick appends exactly that frame to the history; and the finger state is
committed by an entry of the decoding loop exactly when that entry's gripper
field is nonzero and differs from `last_finger_state` (in which case the new
value is the target), otherwise left unchanged. -/
theorem C10_commanded_gripper_invariant :
    (initAgent β).finger_state = GRIPPER_OPEN ∧
    (∀ (a : Agent β) (p : Pose6) (g g' : ℝ),
        getCurrentProprio a ⟨p, g⟩ = ⟨p, a.finger_state⟩ ∧
        getCurrentProprio a ⟨p, g⟩ = getCurrentProprio a ⟨p, g'⟩) ∧
    (∀ (a : Agent β) (obs : Obs) (resp : Option (Response β)),
        (step a obs resp).1.proprio_history =
          processProprio a.proprio_history ⟨obs.eefPose, a.finger_state⟩) ∧
    (∀ (bbox : β) (absA : Act7) (lfs fs : ℝ),
        (absA.grip = 0 ∨ absA.grip = lfs →
          (decodeEntry bbox absA lfs fs).2 = fs) ∧
        (absA.grip ≠ 0 → absA.grip ≠ lfs →
          (decodeEntry bbox absA lfs fs).2 = absA.grip)) := by
  refine ⟨rfl, fun a p g g' => ⟨rfl, rfl⟩, ?_, ?_⟩
  · intro a obs resp
    unfold step
    cases hq : a.pred_actions.isEmpty
    · simp only [hq, Bool.false_eq_true, if_false]
      split <;> rfl
    · simp only [hq, if_true]
      split
      · rfl
      · split <;> rfl
  · intro bbox absA lfs fs
    constructor
    · intro h
      simp only [decodeEntry, if_pos h]
    · intro h0 hl
      simp only [decodeEntry]
      rw [if_neg (fun hc => hc.elim h0 hl)]

/-- Witness for C10: no commit on a no-change entry, commit to the target on
a transition entry. -/
theorem C10_commanded_gripper_invariant_witness :
    (decodeEntry () (⟨zeroPose, 0⟩ : Act7) (-1) 1).2 = 1 ∧
    (decodeEntry () (⟨zeroPose, 1⟩ : Act7) (-1) 1).2 = 1 :=
  ⟨(C10_commanded_gripper_invariant.2.2.2 () ⟨zeroPose, 0⟩ (-1) 1).1 (Or.inl rfl),
   (C10_commanded_gripper_invariant.2.2.2 () ⟨zeroPose, 1⟩ (-1) 1).2
     (by norm_num) (by norm_num)⟩

end GraspVLA
